import Mathlib

/-!
Verification development for the Bosing pulse-schedule compiler.

The repository's user-facing layer is pure Python
(`src/python/bosing/__init__.py`, `src/python/bosing/models.py`); the
waveform engine itself is a native library that is not part of the Python
sources.  Definitions below are therefore of two kinds:

* direct shallow embeddings of the Python source (channel validation,
  margin / entry converters, `GridLength.parse`, the public API surface);
* models of the native engine, each marked `Modelled from the spec:` in its
  doc comment, faithful to the specification's wording (oscillator state
  algebra, instruction execution, sampling, the measure pass).

Floating-point doubles are modelled as exact rationals; complex waveform
samples live in `ℂ`.
-/

namespace Bosing

/-! ## Oscillator state (modelled from the spec, §3 `OscState` and §4.4) -/

/-- Modelled from the spec: the native `OscState` value (`base_freq`,
`delta_freq`, `phase`, phase in cycles), exposed in
`src/python/bosing/__init__.py` as a thin wrapper over the missing native
implementation. -/
structure OscState where
  base_freq : ℚ
  delta_freq : ℚ
  phase : ℚ
  deriving DecidableEq, Repr

namespace OscState

/-- Modelled from the spec: `total_freq = base_freq + delta_freq`. -/
def total_freq (s : OscState) : ℚ :=
  s.base_freq + s.delta_freq

/-- Modelled from the spec: `phase_at(t) = total_freq·t + phase`. -/
def phase_at (s : OscState) (t : ℚ) : ℚ :=
  s.total_freq * t + s.phase

/-- Modelled from the spec: `with_time_shift(Δt)` returns a new state with
`phase ← phase + total_freq·Δt`. -/
def with_time_shift (s : OscState) (dt : ℚ) : OscState :=
  { s with phase := s.phase + s.total_freq * dt }

end OscState

/-! ## Instruction semantics (modelled from the spec, §4.4) -/

/-- Modelled from the spec: `ShiftPhase(Δφ)`: `phase ← phase + Δφ`. -/
def shiftPhase (s : OscState) (dphi : ℚ) : OscState :=
  { s with phase := s.phase + dphi }

/-- Modelled from the spec: `SetPhase(φ_target)` at time `t`:
`phase ← φ_target − total_freq·t`, preserving the instantaneous phase
`φ_target` at `t`. -/
def setPhase (s : OscState) (phi t : ℚ) : OscState :=
  { s with phase := phi - s.total_freq * t }

/-- Modelled from the spec: `ShiftFreq(Δf)` at time `t`: compute
`p = phase_at(t)`; `delta_freq ← delta_freq + Δf`; re-solve
`phase ← p − total_freq_new·t` so that `phase_at(t)` is unchanged. -/
def shiftFreq (s : OscState) (df t : ℚ) : OscState :=
  let p := s.phase_at t
  let s1 : OscState := { s with delta_freq := s.delta_freq + df }
  { s1 with phase := p - s1.total_freq * t }

/-- Modelled from the spec: `SetFreq(f_target)` at time `t`: analogous to
`ShiftFreq` but `delta_freq ← f_target − base_freq`. -/
def setFreq (s : OscState) (f t : ℚ) : OscState :=
  let p := s.phase_at t
  let s1 : OscState := { s with delta_freq := f - s.base_freq }
  { s1 with phase := p - s1.total_freq * t }

/-- Modelled from the spec: `SwapPhase(chA, chB)` at time `t`: compute both
instantaneous phases `p_A, p_B`; re-solve each channel's `phase` so the
instantaneous phases are exchanged; `total_freq` on each channel is
unchanged. -/
def swapPhase (a b : OscState) (t : ℚ) : OscState × OscState :=
  let pa := a.phase_at t
  let pb := b.phase_at t
  ({ a with phase := pb - a.total_freq * t },
   { b with phase := pa - b.total_freq * t })

end Bosing

namespace Bosing.Models

/-! ## Embedding of `src/python/bosing/models.py` (pure Python source) -/

/-- `Alignment` enum from `models.py`. -/
inductive Alignment where
  | END
  | START
  | CENTER
  | STRETCH
  deriving DecidableEq, Repr

/-- `_convert_margin` from `models.py`: a non-tuple (scalar) value `m`
becomes `(m, m)`; a tuple passes through unchanged. -/
def _convert_margin : ℚ ⊕ (ℚ × ℚ) → ℚ × ℚ
  | .inl m => (m, m)
  | .inr p => p

/-- Common attributes stored by the `Element` attrs class in `models.py`
(`max_duration` defaults to `math.inf`, modelled by `⊤ : WithTop ℚ`). -/
structure ElementAttrs where
  margin : ℚ × ℚ
  alignment : Alignment
  visibility : Bool
  duration : Option ℚ
  max_duration : WithTop ℚ
  min_duration : ℚ
  deriving DecidableEq

/-- Construction of the common `Element` attributes: the `margin` field is
stored through the `_convert_margin` converter, all other fields verbatim,
as in the attrs field definitions of `models.py`. -/
def mkElementAttrs (margin : ℚ ⊕ (ℚ × ℚ)) (alignment : Alignment)
    (visibility : Bool) (duration : Option ℚ) (max_duration : WithTop ℚ)
    (min_duration : ℚ) : ElementAttrs :=
  { margin := _convert_margin margin
    alignment := alignment
    visibility := visibility
    duration := duration
    max_duration := max_duration
    min_duration := min_duration }

/-- `AbsoluteEntry` from `models.py`; the child element is carried opaquely
(the converter never inspects it), hence the type parameter. -/
structure AbsoluteEntry (E : Type) where
  time : ℚ
  element : E
  deriving DecidableEq

/-- The union type accepted by `AbsoluteEntry.from_tuple`: a bare element,
a `(time, element)` tuple, or an already-converted entry. -/
inductive AbsEntryInput (E : Type) where
  | element (e : E)
  | tuple (time : ℚ) (e : E)
  | entry (a : AbsoluteEntry E)
  deriving DecidableEq

/-- `AbsoluteEntry.from_tuple` from `models.py`: a bare `Element` gets
`time = 0`, a tuple is unpacked, an entry passes through. -/
def AbsoluteEntry.from_tuple {E : Type} : AbsEntryInput E → AbsoluteEntry E
  | .element e => ⟨0, e⟩
  | .tuple t e => ⟨t, e⟩
  | .entry a => a

/-- `_convert_abs_entries` from `models.py`. -/
def _convert_abs_entries {E : Type} (l : List (AbsEntryInput E)) :
    List (AbsoluteEntry E) :=
  l.map AbsoluteEntry.from_tuple

/-- `GridEntry` from `models.py`. -/
structure GridEntry (E : Type) where
  column : ℤ
  span : ℤ
  element : E
  deriving DecidableEq

/-- The union type accepted by `GridEntry.from_tuple`: a bare element, a
`(column, element)` pair, a `(column, span, element)` triple, or an
already-converted entry. -/
inductive GridEntryInput (E : Type) where
  | element (e : E)
  | tuple2 (column : ℤ) (e : E)
  | tuple3 (column span : ℤ) (e : E)
  | entry (g : GridEntry E)
  deriving DecidableEq

/-- `GridEntry.from_tuple` from `models.py`: a bare `Element` gets column 0
and span 1, a pair gets span 1, a triple is unpacked, an entry passes
through. -/
def GridEntry.from_tuple {E : Type} : GridEntryInput E → GridEntry E
  | .element e => ⟨0, 1, e⟩
  | .tuple2 c e => ⟨c, 1, e⟩
  | .tuple3 c s e => ⟨c, s, e⟩
  | .entry g => g

/-- `_convert_grid_entries` from `models.py`. -/
def _convert_grid_entries {E : Type} (l : List (GridEntryInput E)) :
    List (GridEntry E) :=
  l.map GridEntry.from_tuple

/-! ### `GridLength` and its parser -/

/-- `GridLengthUnit` enum from `models.py`. -/
inductive GridLengthUnit where
  | SECOND
  | AUTO
  | STAR
  deriving DecidableEq, Repr

/-- `GridLength` from `models.py`.  The `auto` constructor stores
`math.nan` as its value in Python; `none` models that NaN here. -/
structure GridLength where
  value : Option ℚ
  unit : GridLengthUnit
  deriving DecidableEq, Repr

/-- `GridLength.auto` class method. -/
def GridLength.auto : GridLength := ⟨none, .AUTO⟩

/-- `GridLength.star` class method. -/
def GridLength.star (v : ℚ) : GridLength := ⟨some v, .STAR⟩

/-- `GridLength.abs` class method. -/
def GridLength.abs (v : ℚ) : GridLength := ⟨some v, .SECOND⟩

/-- Decimal digit test (`'0'`–`'9'`). -/
def isDigitCh (c : Char) : Bool :=
  '0' ≤ c && c ≤ '9'

/-- Whitespace test for the characters Python's `float` strips. -/
def isSpaceCh (c : Char) : Bool :=
  c == ' ' || c == '\t' || c == '\n' || c == '\r'

/-- Strip leading and trailing whitespace from a character list. -/
def stripChars (cs : List Char) : List Char :=
  ((cs.dropWhile isSpaceCh).reverse.dropWhile isSpaceCh).reverse

/-- ASCII lower-casing of one character (enough to recognise `"auto"` in
any letter case, as `str.lower()` does in `GridLength.parse`). -/
def lowerCh (c : Char) : Char :=
  if 'A' ≤ c && c ≤ 'Z' then Char.ofNat (c.toNat + 32) else c

/-- Run of leading decimal digits of a character list, with the rest. -/
def takeDigits : List Char → List ℕ × List Char
  | [] => ([], [])
  | c :: rest =>
      if isDigitCh c then
        let (ds, r) := takeDigits rest
        ((c.toNat - 48) :: ds, r)
      else
        ([], c :: rest)

/-- Digit list to natural number, most significant first. -/
def digitsToNat (ds : List ℕ) : ℕ :=
  ds.foldl (fun a d => 10 * a + d) 0

/-- Optional leading sign; returns `true` when negative. -/
def takeSign : List Char → Bool × List Char
  | '-' :: r => (true, r)
  | '+' :: r => (false, r)
  | r => (false, r)

/-- Python's `float(str)` conversion on decimal literals, exactly: optional
surrounding whitespace, optional sign, digits with an optional point, and
an optional exponent; `none` models a raised `ValueError` (in particular on
the empty string).  `inf`/`nan` literals are outside the modelled fragment;
no input below reaches them. -/
def pyFloat (s : List Char) : Option ℚ :=
  let cs0 := stripChars s
  let sn := takeSign cs0
  let ip := takeDigits sn.2
  let fp :=
    match ip.2 with
    | '.' :: r => takeDigits r
    | other => (([] : List ℕ), other)
  let mantOk : Bool := !ip.1.isEmpty || !fp.1.isEmpty
  let mant : ℚ := (digitsToNat ip.1 : ℚ) + (digitsToNat fp.1 : ℚ) / (10 : ℚ) ^ fp.1.length
  let signed : ℚ := if sn.1 then -mant else mant
  match fp.2 with
  | [] => if mantOk then some signed else none
  | 'e' :: r =>
      let es := takeSign r
      let ed := takeDigits es.2
      if mantOk && !ed.1.isEmpty && ed.2.isEmpty then
        some (signed * (10 : ℚ) ^ (if es.1 then -(digitsToNat ed.1 : ℤ) else (digitsToNat ed.1 : ℤ)))
      else none
  | 'E' :: r =>
      let es := takeSign r
      let ed := takeDigits es.2
      if mantOk && !ed.1.isEmpty && ed.2.isEmpty then
        some (signed * (10 : ℚ) ^ (if es.1 then -(digitsToNat ed.1 : ℤ) else (digitsToNat ed.1 : ℤ)))
      else none
  | _ => none

/-- The argument of `GridLength.parse`: a Python `float`/`int`, or a `str`
(strings are carried as character lists). -/
inductive NumOrStr where
  | num (value : ℚ)
  | str (value : List Char)
  deriving DecidableEq

/-- `GridLength.parse` from `models.py`: numbers give an absolute length;
`"auto"` (case-insensitive, via `value.lower()`) gives the automatic
length; a string ending in `"*"` gives a star length of weight
`float(value[:-1])`; any other string gives an absolute length
`float(value)`.  A failing `float(...)` call is a raised `ValueError`,
modelled by `Except.error`. -/
def GridLength.parse : NumOrStr → Except String GridLength
  | .num v => .ok (GridLength.abs v)
  | .str s =>
      if s.map lowerCh = ("auto").toList then .ok GridLength.auto
      else
        match s.reverse with
        | '*' :: restRev =>
            match pyFloat restRev.reverse with
            | some v => .ok (GridLength.star v)
            | none => .error ("ValueError: could not convert string to float")
        | _ =>
            match pyFloat s with
            | some v => .ok (GridLength.abs v)
            | none => .error ("ValueError: could not convert string to float")

end Bosing.Models

namespace Bosing.Api

/-! ## Embedding of `src/python/bosing/__init__.py` (pure Python source) -/

/-- A numpy `float64` array, by its shape and (row-major) data; only the
shape is inspected by `Channel.__init__`. -/
structure NDArr where
  shape : List ℕ
  data : List ℚ
  deriving DecidableEq

/-- The fields stored on `self` at the end of `Channel.__init__`. -/
structure Channel where
  base_freq : ℚ
  sample_rate : ℚ
  length : ℕ
  delay : ℚ
  align_level : ℤ
  iq_matrix : Option NDArr
  offset : Option NDArr
  iir : Option NDArr
  fir : Option NDArr
  filter_offset : Bool
  is_real : Bool
  deriving DecidableEq

/-- Test applied to a supplied (non-`None`) array argument. -/
def optBad (p : NDArr → Bool) : Option NDArr → Bool
  | none => false
  | some a => p a

/-- The `iir` check of `Channel.__init__`: error unless the array is
two-dimensional with second dimension 6 (`iir.ndim != 2 or iir.shape[1] != 6`). -/
def iirBad (a : NDArr) : Bool :=
  match a.shape with
  | [_, m] => m != 6
  | _ => true

/-- `Channel.__init__` from `src/python/bosing/__init__.py`: the validation
checks in source order, each raising `ValueError` (modelled by
`Except.error` with the source's message), then the assignment of every
field.  Array arguments arrive as already-converted `float64` arrays, so
the `np.asarray` calls are identities here. -/
def channelInit (base_freq sample_rate : ℚ) (length : ℕ) (delay : ℚ)
    (align_level : ℤ) (iq_matrix offset iir fir : Option NDArr)
    (filter_offset is_real : Bool) : Except String Channel :=
  if is_real && iq_matrix.isSome then
    .error ("iq_matrix should be None for real channel")
  else if optBad (fun m => m.shape != [2, 2]) iq_matrix then
    .error ("iq_matrix should have shape (2, 2)")
  else if optBad (fun o => is_real && o.shape != [1]) offset then
    .error ("offset should have length 1 for real channel")
  else if optBad (fun o => !is_real && o.shape != [2]) offset then
    .error ("offset should have length 2 for complex channel")
  else if optBad iirBad iir then
    .error ("iir should have shape (N, 6)")
  else if optBad (fun f => f.shape.length != 1) fir then
    .error ("fir should be a 1D array")
  else
    .ok ⟨base_freq, sample_rate, length, delay, align_level, iq_matrix,
      offset, iir, fir, filter_offset, is_real⟩

/-- Shape of the value returned by a public waveform-generation function:
only the waveform mapping, or the `(waveforms, states)` pair. -/
inductive ReturnShape where
  | waveformsOnly
  | waveformsAndStates
  deriving DecidableEq

/-- Signature of a public module function: its parameter names in source
order and the shape of its return value. -/
structure ApiFunc where
  name : String
  params : List String
  returnShape : ReturnShape
  deriving DecidableEq

/-- Signature of `generate_waveforms` in `src/python/bosing/__init__.py`:
no states parameter, and the return annotation is
`dict[str, npt.NDArray[np.float64]]` (waveforms only). -/
def generate_waveforms : ApiFunc :=
  ⟨("generate_waveforms"),
   [("channels"), ("shapes"), ("schedule"), ("time_tolerance"),
    ("amp_tolerance"), ("allow_oversize"), ("crosstalk")],
   .waveformsOnly⟩

/-- Signature of `generate_waveforms_with_states` in
`src/python/bosing/__init__.py`: it additionally accepts the optional
`states` mapping and returns the `(waveforms, states)` tuple. -/
def generate_waveforms_with_states : ApiFunc :=
  ⟨("generate_waveforms_with_states"),
   [("channels"), ("shapes"), ("schedule"), ("time_tolerance"),
    ("amp_tolerance"), ("allow_oversize"), ("crosstalk"), ("states")],
   .waveformsAndStates⟩

/-- The waveform-generation entry points listed in the module's `__all__`. -/
def waveformApi : List ApiFunc :=
  [generate_waveforms, generate_waveforms_with_states]

end Bosing.Api

namespace Bosing.Layout

/-! ## Measure pass (modelled from the spec, §4.2)

The measure pass runs inside the native engine; the fragment below models
it from the specification for the element variants the schedule layout
claims exercise (`Play`, zero-duration instructions, `Barrier`, `Repeat`,
`Stack`, `Absolute`).  The `Grid` variant, whose column algorithm no claim
touches, is outside the modelled fragment. -/

/-- Modelled from the spec: the common element attributes read by the
measure pass — margin, requested duration, and the `min/max` bounds
(`none` for `max_duration` models the `+∞` default). -/
structure Common where
  margin : ℚ × ℚ
  duration : Option ℚ
  min_duration : ℚ
  max_duration : Option ℚ

mutual

/-- Modelled from the spec: schedule elements (mutual with their child
lists so that all functions below are structurally recursive). -/
inductive SElement where
  | play (channel : ℕ) (width plateau : ℚ) (flexible : Bool) (com : Common)
  | instr (channel : ℕ) (com : Common)
  | barrier (channels : List ℕ) (com : Common)
  | repeatEl (child : SElement) (count : ℕ) (spacing : ℚ) (com : Common)
  | stack (children : SElems) (com : Common)
  | absolute (children : AbsEntries) (com : Common)

/-- Child list of a `Stack`. -/
inductive SElems where
  | nil
  | cons (head : SElement) (tail : SElems)

/-- Child list of an `Absolute`: `(time, element)` entries. -/
inductive AbsEntries where
  | nil
  | cons (time : ℚ) (el : SElement) (tail : AbsEntries)

end

/-- Common attributes of an element. -/
def SElement.com : SElement → Common
  | .play _ _ _ _ c => c
  | .instr _ c => c
  | .barrier _ c => c
  | .repeatEl _ _ _ c => c
  | .stack _ c => c
  | .absolute _ c => c

mutual

/-- Set of channels an element touches (union over descendants; a
`Barrier` touches its listed channels). -/
def SElement.chans : SElement → List ℕ
  | .play c _ _ _ _ => [c]
  | .instr c _ => [c]
  | .barrier cs _ => cs
  | .repeatEl ch _ _ _ => ch.chans
  | .stack cs _ => SElems.chansOf cs
  | .absolute cs _ => AbsEntries.chansOf cs

/-- Channels touched by a stack child list. -/
def SElems.chansOf : SElems → List ℕ
  | .nil => []
  | .cons h t => h.chans ++ SElems.chansOf t

/-- Channels touched by an absolute child list. -/
def AbsEntries.chansOf : AbsEntries → List ℕ
  | .nil => []
  | .cons _ e t => e.chans ++ AbsEntries.chansOf t

end

/-- Modelled from the spec: per-channel lanes of a `Stack` during measure —
a cursor per channel plus the virtual all-channels lane; `present` lists
the channels seen so far. -/
structure Lanes where
  virt : ℚ
  present : List ℕ
  cur : ℕ → ℚ

/-- Lanes at the start of a stack: every cursor at 0. -/
def initLanes : Lanes := ⟨0, [], fun _ => 0⟩

/-- Maximum over all lanes (the virtual lane and every present channel). -/
def laneMax (L : Lanes) : ℚ :=
  L.present.foldl (fun a c => max a (L.cur c)) L.virt

/-- Maximum cursor over a nonempty channel set. -/
def Lanes.setMax (L : Lanes) : List ℕ → ℚ
  | [] => L.virt
  | c :: rest => rest.foldl (fun a x => max a (L.cur x)) (L.cur c)

/-- Modelled from the spec: one stack child of outer duration `outer`
accumulates on every channel it touches — its start is the maximum of the
touched cursors and each touched cursor advances to `start + outer`.  A
child touching no channel (including a `Barrier` with an empty channel
list, which synchronizes every lane present) runs on the all-channels
lane: it starts at the maximum over all lanes and advances them all. -/
def stackStep (L : Lanes) (e : SElement) (outer : ℚ) : Lanes :=
  let cs := e.chans
  if cs.isEmpty then
    let s := laneMax L
    ⟨s + outer, L.present, fun _ => s + outer⟩
  else
    let s := L.setMax cs
    ⟨L.virt, cs ++ L.present, fun c => if cs.contains c then s + outer else L.cur c⟩

/-- Modelled from the spec: clamp a duration into
`[min_duration, max_duration]`, `min` taking priority over `max`. -/
def clampDuration (com : Common) (x : ℚ) : ℚ :=
  max com.min_duration
    (match com.max_duration with
     | none => x
     | some mx => min mx x)

/-- Modelled from the spec: the clamped desired inner duration — replaced
by the explicit `duration` when set, re-clamped either way — plus the left
and right margins, giving the desired outer duration. -/
def applyCommon (com : Common) (inner : ℚ) : ℚ :=
  (match com.duration with
   | some d => clampDuration com d
   | none => clampDuration com inner) + com.margin.1 + com.margin.2

mutual

/-- Modelled from the spec: the measure pass — desired inner duration per
variant (`Play → width + plateau` with flexible plays measuring with
`plateau = 0`; instructions and `Barrier` → 0; `Repeat` →
`count·child + (count−1)·spacing`; `Stack` → maximum across lanes;
`Absolute` → maximum of `time + child`), then duration replacement,
clamping and margins via `applyCommon`. -/
def measureOuter : SElement → ℚ
  | .play _ w p fl com => applyCommon com (if fl then w else w + p)
  | .instr _ com => applyCommon com 0
  | .barrier _ com => applyCommon com 0
  | .repeatEl ch n sp com =>
      applyCommon com
        (if n = 0 then 0 else n * measureOuter ch + (n - 1 : ℕ) * sp)
  | .stack cs com => applyCommon com (laneMax (stackLanes initLanes cs))
  | .absolute cs com => applyCommon com (absMax cs)

/-- Fold the stack lanes over the children in order. -/
def stackLanes : Lanes → SElems → Lanes
  | L, .nil => L
  | L, .cons h t => stackLanes (stackStep L h (measureOuter h)) t

/-- Maximum of `time + measured child` over absolute entries (0 when
empty). -/
def absMax : AbsEntries → ℚ
  | .nil => 0
  | .cons t e rest => max (t + measureOuter e) (absMax rest)

end

end Bosing.Layout

namespace Bosing

/-! ## Single-channel instruction execution and sampling (modelled from the
spec, §4.4 and §4.5)

The execution and sampling stages live in the native engine; they are
modelled here from the specification for one channel.  Pulse merging and
amplitude-tolerance pruning (spec §4.4/§4.5) are omitted: merging is
sum-preserving by the spec's own description, and pruning drops a pulse
based only on its amplitude, which none of the transformations below
change.  The `Interp` shape, which no claim touches, is outside the
modelled fragment. -/

/-- Modelled from the spec: pulse shape variants used by the sampler
(`Hann`); a pulse's `shape` field is an `Option`, with `none` the
rectangular pulse. -/
inductive Shape where
  | hann
  deriving DecidableEq

/-- Modelled from the spec: the envelope, `½(1 + cos 2πx)` for Hann and
constantly 1 for the rectangular pulse. -/
noncomputable def Shape.env : Option Shape → ℚ → ℝ
  | none, _ => 1
  | some .hann, x => 1 / 2 * (1 + Real.cos (2 * Real.pi * x))

/-- Modelled from the spec: the envelope derivative used by DRAG,
`−π sin 2πx` for Hann and 0 for the rectangular pulse. -/
noncomputable def Shape.envDeriv : Option Shape → ℚ → ℝ
  | none, _ => 0
  | some .hann, x => -(Real.pi * Real.sin (2 * Real.pi * x))

/-- Modelled from the spec: one entry of a channel's pulse list.  The
`phase` field is referenced to time zero, so that sample `k` carries
carrier phase `freq·k·Δt + phase` as in spec §4.5 step 4. -/
structure Pulse where
  shape : Option Shape
  start : ℚ
  width : ℚ
  plateau : ℚ
  amplitude : ℚ
  drag : ℚ
  freq : ℚ
  phase : ℚ

/-- Modelled from the spec: the channel configuration fields the sampler
reads. -/
structure ChannelCfg where
  sampleRate : ℚ
  delay : ℚ
  alignLevel : ℤ
  length : ℕ

/-- Modelled from the spec: the time-ordered instruction stream of one
channel (`SwapPhase` involves a second channel and cannot occur in a
schedule confined to one channel).  Zero-duration instructions carry their
arranged time. -/
inductive Instr where
  | play (t width plateau amplitude drag extra_freq extra_phase : ℚ)
      (shape : Option Shape)
  | shiftPhase (dphi : ℚ)
  | setPhase (t phi : ℚ)
  | shiftFreq (t df : ℚ)
  | setFreq (t f : ℚ)

/-- Modelled from the spec: execution of one instruction — `Play` emits a
pulse whose carrier is `total_freq + extra_freq` and whose starting phase
at its time `t` is `phase_at(t) + extra_phase` (stored referenced to time
zero), leaving the oscillator untouched; the other instructions update the
oscillator as in §4.4. -/
def execStep (s : OscState) : Instr → OscState × Option Pulse
  | .play t w p a dg ef ep sh =>
      let freq := s.total_freq + ef
      (s, some ⟨sh, t, w, p, a, dg, freq, s.phase_at t + ep - freq * t⟩)
  | .shiftPhase dphi => (shiftPhase s dphi, none)
  | .setPhase t phi => (setPhase s phi t, none)
  | .shiftFreq t df => (shiftFreq s df t, none)
  | .setFreq t f => (setFreq s f t, none)

/-- Modelled from the spec: walk the instruction stream, returning the
final oscillator state and the channel's pulse list. -/
def execList (s : OscState) : List Instr → OscState × List Pulse
  | [] => (s, [])
  | i :: rest =>
      let step := execStep s i
      let restRes := execList step.1 rest
      (restRes.1, step.2.toList ++ restRes.2)

/-- Modelled from the spec: snapping of a pulse start to the nearest
multiple of `2^align_level · Δt`. -/
def snap (cfg : ChannelCfg) (t : ℚ) : ℚ :=
  let g := (2 : ℚ) ^ cfg.alignLevel / cfg.sampleRate
  round (t / g) * g

/-- Modelled from the spec: the envelope argument at time `tt` of a pulse
with snapped start `t0` — ramp-up on `[t0, t0 + w/2)`, plateau, ramp-down,
each mapped into `[−½, ½]` by `1/width`. -/
def envArg (t0 w plateau tt : ℚ) : ℚ :=
  let u := tt - t0
  if u < w / 2 then (u - w / 2) / w
  else if u < w / 2 + plateau then 0
  else (u - w / 2 - plateau) / w

/-- A phase in cycles as a point on the complex unit circle,
`exp(i·2π·θ)`. -/
noncomputable def cyc (θ : ℚ) : ℂ :=
  Complex.exp (2 * Real.pi * Complex.I * (θ : ℂ))

/-- Modelled from the spec: the contribution of one pulse to sample `k` —
zero outside `[i_start, i_end)` (the snapped active interval clipped to the
buffer), else
`amplitude·(env(x) + i·drag·sample_rate·env′(x)/width)·exp(i·2π·(freq·k·Δt + phase))`. -/
noncomputable def pulseSample (cfg : ChannelCfg) (p : Pulse) (k : ℕ) : ℂ :=
  if max ⌊snap cfg (p.start + cfg.delay) * cfg.sampleRate⌋ 0 ≤ (k : ℤ) ∧
      (k : ℤ) <
        min ⌈(snap cfg (p.start + cfg.delay) + p.width + p.plateau) * cfg.sampleRate⌉
          (cfg.length : ℤ) then
    ((p.amplitude : ℂ) *
        ((Shape.env p.shape
            (envArg (snap cfg (p.start + cfg.delay)) p.width p.plateau
              (k * (1 / cfg.sampleRate))) : ℂ) +
          Complex.I * (p.drag : ℂ) * (cfg.sampleRate : ℂ) *
            (Shape.envDeriv p.shape
              (envArg (snap cfg (p.start + cfg.delay)) p.width p.plateau
                (k * (1 / cfg.sampleRate))) : ℂ) / (p.width : ℂ))) *
      cyc (p.freq * k * (1 / cfg.sampleRate) + p.phase)
  else 0

/-- Modelled from the spec: sample `k` of the channel buffer — the linear
superposition of all pulse contributions. -/
noncomputable def waveformSample (cfg : ChannelCfg) (pulses : List Pulse) (k : ℕ) : ℂ :=
  (pulses.map (fun p => pulseSample cfg p k)).sum

/-- Adding `f` to the oscillator base frequency. -/
def liftState (f : ℚ) (s : OscState) : OscState :=
  { s with base_freq := s.base_freq + f }

/-- Adding `f` to a pulse's carrier frequency. -/
def liftPulse (f : ℚ) (p : Pulse) : Pulse :=
  { p with freq := p.freq + f }

/-- The instruction stream contains no `SetPhase` and no `SetFreq`. -/
def noSetInstr (il : List Instr) : Bool :=
  il.all fun i =>
    match i with
    | .setPhase _ _ => false
    | .setFreq _ _ => false
    | _ => true

/-- A concrete stream on one channel: `SetPhase(0)` at `t = 1/2` followed
by a unit rectangular `Play` at `t = 1/2` (width 1, amplitude 1). -/
def ilMix : List Instr := [.setPhase (1 / 2) 0, .play (1 / 2) 1 0 1 0 0 0 none]

/-- A concrete channel: sample rate 1, no delay, align level −1 (so `1/2`
is on the snapping grid), two samples. -/
def cfgMix : ChannelCfg := ⟨1, 0, -1, 2⟩

/-- A concrete stream with a single rectangular `Play` at `t = 0`. -/
def ilSimple : List Instr := [.play 0 1 0 1 0 0 0 none]

/-! ## Helper lemmas -/

theorem cyc_add (a b : ℚ) : cyc (a + b) = cyc a * cyc b := by
  unfold cyc
  rw [← Complex.exp_add]
  congr 1
  push_cast
  ring

theorem cyc_zero : cyc 0 = 1 := by
  simp [cyc]

theorem cyc_one : cyc 1 = 1 := by
  unfold cyc
  rw [show ((2 : ℂ) * (Real.pi : ℂ) * Complex.I * ((1 : ℚ) : ℂ)) =
      2 * (Real.pi : ℂ) * Complex.I by push_cast; ring]
  exact Complex.exp_two_pi_mul_I

theorem cyc_half : cyc (1 / 2) = -1 := by
  unfold cyc
  rw [show ((2 : ℂ) * (Real.pi : ℂ) * Complex.I * ((1 / 2 : ℚ) : ℂ)) =
      (Real.pi : ℂ) * Complex.I by push_cast; ring]
  exact Complex.exp_pi_mul_I

theorem liftState_shiftPhase (f : ℚ) (s : OscState) (d : ℚ) :
    shiftPhase (liftState f s) d = liftState f (shiftPhase s d) := rfl

theorem liftState_shiftFreq (f : ℚ) (s : OscState) (df t : ℚ) :
    shiftFreq (liftState f s) df t = liftState f (shiftFreq s df t) := by
  simp only [shiftFreq, liftState, OscState.phase_at, OscState.total_freq,
    OscState.mk.injEq]
  refine ⟨trivial, trivial, by ring⟩

theorem execStep_play_lift (f : ℚ) (s : OscState) (t w p a dg ef ep : ℚ)
    (sh : Option Shape) :
    Pulse.mk sh t w p a dg ((liftState f s).total_freq + ef)
        ((liftState f s).phase_at t + ep - ((liftState f s).total_freq + ef) * t) =
      liftPulse f
        (Pulse.mk sh t w p a dg (s.total_freq + ef)
          (s.phase_at t + ep - (s.total_freq + ef) * t)) := by
  simp only [liftPulse, liftState, OscState.phase_at, OscState.total_freq,
    Pulse.mk.injEq]
  refine ⟨trivial, trivial, trivial, trivial, trivial, trivial, by ring, by ring⟩

theorem execList_lift (f : ℚ) (il : List Instr) (h : noSetInstr il = true)
    (s : OscState) :
    execList (liftState f s) il =
      (liftState f (execList s il).1, (execList s il).2.map (liftPulse f)) := by
  induction il generalizing s with
  | nil => simp [execList]
  | cons i rest ih =>
      have hrest : noSetInstr rest = true := by
        simp only [noSetInstr, List.all_cons, Bool.and_eq_true] at h
        exact h.2
      cases i with
      | play t w p a dg ef ep sh =>
          simp only [execList, execStep, ih hrest, Prod.mk.injEq,
            Option.toList_some, List.map_append, List.map_cons, List.map_nil,
            List.cons.injEq, execStep_play_lift]
      | shiftPhase d =>
          simp only [execList, execStep, liftState_shiftPhase, ih hrest,
            Option.toList_none, List.nil_append]
      | shiftFreq t df =>
          simp only [execList, execStep, liftState_shiftFreq, ih hrest,
            Option.toList_none, List.nil_append]
      | setPhase t phi =>
          exfalso
          simp [noSetInstr, List.all_cons] at h
      | setFreq t fr =>
          exfalso
          simp [noSetInstr, List.all_cons] at h

theorem pulseSample_lift (cfg : ChannelCfg) (f : ℚ) (p : Pulse) (k : ℕ) :
    pulseSample cfg (liftPulse f p) k =
      pulseSample cfg p k * cyc (f * k * (1 / cfg.sampleRate)) := by
  simp only [pulseSample, liftPulse]
  split
  · rw [show (p.freq + f) * (k : ℚ) * (1 / cfg.sampleRate) + p.phase =
        (p.freq * (k : ℚ) * (1 / cfg.sampleRate) + p.phase) +
          f * (k : ℚ) * (1 / cfg.sampleRate) by ring, cyc_add]
    ring
  · simp

theorem sum_map_mul_c (c : ℂ) (g : Pulse → ℂ) (l : List Pulse) :
    (l.map fun p => g p * c).sum = (l.map g).sum * c := by
  induction l with
  | nil => simp
  | cons h t ih => simp [ih, add_mul]

theorem exec_mix_one :
    (execList ⟨1, 0, 0⟩ ilMix).2 = [⟨none, 1 / 2, 1, 0, 1, 0, 1, -(1 / 2)⟩] := by
  norm_num [ilMix, execList, execStep, setPhase, OscState.phase_at,
    OscState.total_freq]

theorem exec_mix_zero :
    (execList ⟨0, 0, 0⟩ ilMix).2 = [⟨none, 1 / 2, 1, 0, 1, 0, 0, 0⟩] := by
  norm_num [ilMix, execList, execStep, setPhase, OscState.phase_at,
    OscState.total_freq]

/-! ## Theorems C3, C4, C5 -/

/-- Claim C3: after `ShiftFreq(Δf)` at time `t`, the instantaneous phase at
`t` is exactly unchanged, the new `delta_freq` is the old one plus `Δf`, and
the new phase offset is `p − total_freq_new·t` with `p` the pre-shift
`phase_at(t)`. -/
theorem shiftFreq_phase_continuity (s : OscState) (df t : ℚ) :
    (shiftFreq s df t).phase_at t = s.phase_at t ∧
    (shiftFreq s df t).delta_freq = s.delta_freq + df ∧
    (shiftFreq s df t).phase = s.phase_at t - (shiftFreq s df t).total_freq * t := by
  refine ⟨?_, rfl, rfl⟩
  simp only [shiftFreq, OscState.phase_at, OscState.total_freq]
  ring

/-- Claim C4: `SwapPhase` applied twice at the same time `t` is the identity
on both oscillator states; a single swap leaves each channel's `total_freq`
unchanged and exchanges the instantaneous phases at `t`. -/
theorem swapPhase_involution (a b : OscState) (t : ℚ) :
    swapPhase (swapPhase a b t).1 (swapPhase a b t).2 t = (a, b) ∧
    (swapPhase a b t).1.total_freq = a.total_freq ∧
    (swapPhase a b t).2.total_freq = b.total_freq ∧
    (swapPhase a b t).1.phase_at t = b.phase_at t ∧
    (swapPhase a b t).2.phase_at t = a.phase_at t := by
  obtain ⟨ab, ad, ap⟩ := a
  obtain ⟨bb, bd, bp⟩ := b
  refine ⟨?_, rfl, rfl, ?_, ?_⟩
  · simp only [swapPhase, OscState.phase_at, OscState.total_freq, Prod.mk.injEq,
      OscState.mk.injEq]
    refine ⟨⟨trivial, trivial, ?_⟩, trivial, trivial, ?_⟩ <;> ring
  · simp only [swapPhase, OscState.phase_at, OscState.total_freq]
    ring
  · simp only [swapPhase, OscState.phase_at, OscState.total_freq]
    ring

/-- Claim C5: `with_time_shift(Δt)` returns a state with the same
`base_freq` and `delta_freq` and with `phase` increased by `total_freq·Δt`,
where `total_freq = base_freq + delta_freq` and
`phase_at(t) = total_freq·t + phase`; the original state is unchanged (all
states here are immutable values). -/
theorem with_time_shift_spec (s : OscState) (dt : ℚ) :
    (s.with_time_shift dt).base_freq = s.base_freq ∧
    (s.with_time_shift dt).delta_freq = s.delta_freq ∧
    (s.with_time_shift dt).phase = s.phase + s.total_freq * dt ∧
    s.total_freq = s.base_freq + s.delta_freq ∧
    ∀ t : ℚ, s.phase_at t = s.total_freq * t + s.phase := by
  exact ⟨rfl, rfl, rfl, rfl, fun _ => rfl⟩

/-! ## Theorems C1, C2, C8, C9, C10 -/

/-- Claim C1 counterexample: the entry point named `generate_waveforms`
neither accepts initial oscillator states (it has no `states` parameter)
nor returns a `(waveforms, final_states)` pair. -/
theorem generate_waveforms_not_pair :
    ¬ ((("states") ∈ Api.generate_waveforms.params) ∨
       Api.generate_waveforms.returnShape = Api.ReturnShape.waveformsAndStates) := by
  decide

/-- Claim C1 amended: the waveform-generation API consists of two entry
points: `generate_waveforms`, without a states parameter, returning only
the channel-name-to-waveform mapping, and `generate_waveforms_with_states`,
which accepts optional initial states and returns the pair of waveforms and
final states. -/
theorem waveform_api_two_entry_points :
    Api.waveformApi = [Api.generate_waveforms, Api.generate_waveforms_with_states] ∧
    (("states") ∉ Api.generate_waveforms.params) ∧
    Api.generate_waveforms.returnShape = Api.ReturnShape.waveformsOnly ∧
    (("states") ∈ Api.generate_waveforms_with_states.params) ∧
    Api.generate_waveforms_with_states.returnShape = Api.ReturnShape.waveformsAndStates := by
  refine ⟨rfl, by decide, rfl, by decide, rfl⟩

/-- The `iir` validation test fails exactly when the shape is not of the
form `(N, 6)`. -/
theorem iirBad_iff (a : Api.NDArr) :
    Api.iirBad a = true ↔ ∀ n : ℕ, a.shape ≠ [n, 6] := by
  rcases a with ⟨sh, d⟩
  match sh with
  | [] => simp [Api.iirBad]
  | [x] => simp [Api.iirBad]
  | [x, m] =>
      simp only [Api.iirBad, bne_iff_ne, ne_eq]
      constructor
      · rintro hm n ⟨⟩
        exact hm rfl
      · intro h hm
        exact h x (by rw [hm])
  | x :: y :: z :: r => simp [Api.iirBad]

/-- Claim C2: `Channel.__init__` raises `ValueError` exactly on the listed
structural violations, and on every other input it succeeds and stores the
given fields unchanged. -/
theorem channelInit_valueError_iff (bf sr : ℚ) (len : ℕ) (dl : ℚ) (al : ℤ)
    (iq off ii fi : Option Api.NDArr) (fo ir : Bool) :
    ((∃ e, Api.channelInit bf sr len dl al iq off ii fi fo ir = Except.error e) ↔
      ((ir = true ∧ iq.isSome = true) ∨
       (∃ m, iq = some m ∧ m.shape ≠ [2, 2]) ∨
       (∃ o, off = some o ∧ ir = true ∧ o.shape ≠ [1]) ∨
       (∃ o, off = some o ∧ ir = false ∧ o.shape ≠ [2]) ∨
       (∃ a, ii = some a ∧ ∀ n : ℕ, a.shape ≠ [n, 6]) ∨
       (∃ f, fi = some f ∧ f.shape.length ≠ 1))) ∧
    (Api.channelInit bf sr len dl al iq off ii fi fo ir =
        Except.ok ⟨bf, sr, len, dl, al, iq, off, ii, fi, fo, ir⟩ ↔
      ¬ ((ir = true ∧ iq.isSome = true) ∨
       (∃ m, iq = some m ∧ m.shape ≠ [2, 2]) ∨
       (∃ o, off = some o ∧ ir = true ∧ o.shape ≠ [1]) ∨
       (∃ o, off = some o ∧ ir = false ∧ o.shape ≠ [2]) ∨
       (∃ a, ii = some a ∧ ∀ n : ℕ, a.shape ≠ [n, 6]) ∨
       (∃ f, fi = some f ∧ f.shape.length ≠ 1))) := by
  simp only [Api.channelInit, Api.optBad]
  split_ifs with h1 h2 h3 h4 h5 h6 <;>
    rcases iq with _ | m <;> rcases off with _ | o <;> rcases ii with _ | a <;>
      rcases fi with _ | f <;> cases ir <;>
    simp_all [iirBad_iff, bne_iff_ne]

/-- Claim C8 (evaluation of the code at the failing input): contrary to the
documented `"*" → 1 star`, `GridLength.parse` on the bare star string calls
`float("")`, which raises `ValueError`. -/
theorem parse_star_raises :
    Models.GridLength.parse (.str (("*").toList)) =
      Except.error ("ValueError: could not convert string to float") := rfl

/-- Claim C9: an `Element` constructed with a scalar margin `m` stores the
symmetric pair `(m, m)`; a margin supplied as a pair is stored unchanged. -/
theorem margin_scalar_becomes_pair (m : ℚ) (p : ℚ × ℚ) (a : Models.Alignment)
    (v : Bool) (d : Option ℚ) (mx : WithTop ℚ) (mn : ℚ) :
    (Models.mkElementAttrs (.inl m) a v d mx mn).margin = (m, m) ∧
    (Models.mkElementAttrs (.inr p) a v d mx mn).margin = p ∧
    Models._convert_margin (.inl m) = (m, m) ∧
    Models._convert_margin (.inr p) = p :=
  ⟨rfl, rfl, rfl, rfl⟩

/-- Claim C10: a bare element child of an `Absolute` gets time 0; a bare
element child of a `Grid` gets column 0 and span 1; a `(column, element)`
pair gets span 1; already-converted entries pass through unchanged (and
tuples are unpacked verbatim). -/
theorem entry_conversion_defaults (E : Type) (e : E) (t : ℚ) (c s : ℤ)
    (a : Models.AbsoluteEntry E) (g : Models.GridEntry E) :
    Models.AbsoluteEntry.from_tuple (.element e) = ⟨0, e⟩ ∧
    Models.AbsoluteEntry.from_tuple (.tuple t e) = ⟨t, e⟩ ∧
    Models.AbsoluteEntry.from_tuple (.entry a) = a ∧
    Models.GridEntry.from_tuple (.element e) = ⟨0, 1, e⟩ ∧
    Models.GridEntry.from_tuple (.tuple2 c e) = ⟨c, 1, e⟩ ∧
    Models.GridEntry.from_tuple (.tuple3 c s e) = ⟨c, s, e⟩ ∧
    Models.GridEntry.from_tuple (.entry g) = g :=
  ⟨rfl, rfl, rfl, rfl, rfl, rfl, rfl⟩

/-! ## Theorems C6, C7 -/

/-- Claim C6 counterexample: on a schedule containing a `SetPhase` at
`t = 1/2` followed by a unit rectangular `Play`, sample 1 of the run at
`base_freq = 1` is `−1` while the run at `base_freq = 0` multiplied by
`exp(i·2π·f·k·Δt)` gives `+1` — far outside any floating-point tolerance,
so the claim fails as stated for arbitrary schedules. -/
theorem carrier_mixing_claim_false :
    ¬ (waveformSample cfgMix (execList ⟨1, 0, 0⟩ ilMix).2 1 =
        waveformSample cfgMix (execList ⟨0, 0, 0⟩ ilMix).2 1 *
          cyc (1 * (1 : ℕ) * (1 / cfgMix.sampleRate))) := by
  rw [exec_mix_one, exec_mix_zero]
  have hc : (⌈(3 / 2 : ℚ)⌉ : ℤ) = 2 := by
    rw [Int.ceil_eq_iff]
    norm_num
  have h1 : waveformSample cfgMix [⟨none, 1 / 2, 1, 0, 1, 0, 1, -(1 / 2)⟩] 1 =
      cyc (1 / 2) := by
    norm_num [waveformSample, pulseSample, snap, cfgMix, envArg, Shape.env,
      Shape.envDeriv, hc]
  have h2 : waveformSample cfgMix [⟨none, 1 / 2, 1, 0, 1, 0, 0, 0⟩] 1 =
      cyc 0 := by
    norm_num [waveformSample, pulseSample, snap, cfgMix, envArg, Shape.env,
      Shape.envDeriv, hc]
  rw [h1, h2, cyc_zero, cyc_half]
  norm_num [cfgMix, cyc_one]

/-- Claim C6 amended: for every single-channel instruction stream without
`SetPhase` or `SetFreq` (whose oscillator updates depend on the base
frequency itself), every channel configuration, every base frequency `f`
and every sample index `k`, the waveform generated at `base_freq = f`
equals the waveform generated at `base_freq = 0` multiplied sample-wise by
`exp(i·2π·f·k·Δt)` — exactly, hence within any tolerance. -/
theorem carrier_mixing_invariance (il : List Instr) (h : noSetInstr il = true)
    (cfg : ChannelCfg) (f : ℚ) (k : ℕ) :
    waveformSample cfg (execList ⟨f, 0, 0⟩ il).2 k =
      waveformSample cfg (execList ⟨0, 0, 0⟩ il).2 k *
        cyc (f * k * (1 / cfg.sampleRate)) := by
  have h0 : (⟨f, 0, 0⟩ : OscState) = liftState f ⟨0, 0, 0⟩ := by
    simp [liftState]
  rw [h0, execList_lift f il h]
  simp only [waveformSample, List.map_map, Function.comp_def, pulseSample_lift]
  exact sum_map_mul_c _ _ _

/-- Claim C6 witness: the amended invariance instantiated on a concrete
one-`Play` stream at `f = 2`, `k = 1`. -/
theorem carrier_mixing_invariance_witness :
    noSetInstr ilSimple = true ∧
    waveformSample cfgMix (execList ⟨2, 0, 0⟩ ilSimple).2 1 =
      waveformSample cfgMix (execList ⟨0, 0, 0⟩ ilSimple).2 1 *
        cyc (2 * (1 : ℕ) * (1 / cfgMix.sampleRate)) :=
  ⟨rfl, carrier_mixing_invariance ilSimple rfl cfgMix 2 1⟩

/-- Claim C7: measuring a `Stack` whose only child is a `Barrier` with
explicit duration `d ≥ 0` and whose margin is `m` on each side yields the
desired outer duration `d + 2·m`: the barrier measures to its explicit
duration and the measure pass adds both margins. -/
theorem stack_barrier_margin_measure (d m : ℚ) (h : 0 ≤ d) :
    Layout.measureOuter
        (.stack (.cons (.barrier [] ⟨(0, 0), some d, 0, none⟩) .nil)
          ⟨(m, m), none, 0, none⟩) = d + 2 * m := by
  simp [Layout.measureOuter, Layout.stackLanes, Layout.stackStep, Layout.absMax,
    Layout.laneMax, Layout.initLanes, Layout.applyCommon, Layout.clampDuration,
    Layout.SElement.chans, Layout.Lanes.setMax, max_eq_right h]
  ring

/-- Claim C7 witness: `Stack(Barrier(duration=10), margin=10)` measures to
30. -/
theorem stack_barrier_margin_measure_witness :
    (0 : ℚ) ≤ 10 ∧
    Layout.measureOuter
        (.stack (.cons (.barrier [] ⟨(0, 0), some 10, 0, none⟩) .nil)
          ⟨(10, 10), none, 0, none⟩) = 10 + 2 * 10 :=
  ⟨by norm_num, stack_barrier_margin_measure 10 10 (by norm_num)⟩

end Bosing
